import Mathlib

/-!
# Tic-tac-toe server (`src/server.c`): shallow embedding and verified properties

The C program keeps one global `GameState game`; every function below takes the
state explicitly and returns the new state together with the list of socket
effects (`send`, `close`) it performed, in program order.

Conventions of the embedding:

* `char board[3][3]` is a function `Fin 3 → Fin 3 → Char`, `int client_sockets[2]`
  a function `Fin 2 → Int`; an index computed at run time is a `Nat`, and the
  accessors `sock_get` / `sock_set` treat an index outside the array as a read of
  `0` / a write that is dropped.  The counter `connected_clients` only ever takes
  the values 0, 1, 2 in the program; a theorem whose proof depends on the slots
  read through the counter assumes `connected_clients ≤ MAX_CLIENTS`.
* `time(NULL)` is an input: each handler receives the value of every clock read
  it may perform.
* `sscanf(message, "move %d %d", ...)` and `strncmp` are library functions; they
  are modelled by `sscanf_move` and `strncmp4`.  A `%d` conversion stores a 32-bit
  `int`: the digits are converted by `strtol` (saturating at the 64-bit `long`
  range) and the result is truncated to 32 bits, so that `move 4294967296 4294967297`
  is read as row 0, column 1.
* `printf` logging on the server console is not modelled.
-/

namespace TicTacToe

/-! ## Data model -/

/-- The constant `#define MAX_CLIENTS 2`. -/
def MAX_CLIENTS : Nat := 2

/-- The constant `#define TIMEOUT_SECONDS 300`. -/
def TIMEOUT_SECONDS : Int := 300

/-- The global `GameState` structure (`server.c` lines 22-29). -/
structure GameState where
  board : Fin 3 → Fin 3 → Char
  current_player : Int
  connected_clients : Nat
  client_sockets : Fin 2 → Int
  game_active : Bool
  last_activity : Int

/-- What the server does on a socket: `send(fd, text)` or `close(fd)`. -/
inductive Effect where
  | send (client_socket : Int) (message : String)
  | close (client_socket : Int)
  deriving DecidableEq, Repr

/-- Read `client_sockets[i]` for a run-time index. -/
def sock_get (cs : Fin 2 → Int) (i : Nat) : Int :=
  if h : i < 2 then cs ⟨i, h⟩ else 0

/-- Write `client_sockets[i] = v` for a run-time index. -/
def sock_set (cs : Fin 2 → Int) (i : Nat) (v : Int) : Fin 2 → Int :=
  fun j => if j.val = i then v else cs j

/-- The mark of a player: `(player == 0) ? 'X' : 'O'`. -/
def mark_of (player : Int) : Char :=
  if player = 0 then 'X' else 'O'

/-! ## Library functions -/

/-- C `isspace` in the default locale. -/
def isspace (c : Char) : Bool :=
  c == ' ' || c == '\t' || c == '\n' || c == '\x0b' || c == '\x0c' || c == '\r'

/-- Skip leading white space. -/
def skip_space : List Char → List Char
  | [] => []
  | c :: cs => if isspace c then skip_space cs else c :: cs

/-- Read a maximal run of decimal digits, accumulating the value. -/
def scan_digits : List Char → Nat → Nat × List Char
  | [], acc => (acc, [])
  | c :: cs, acc =>
    if c.isDigit then scan_digits cs (acc * 10 + (c.toNat - 48)) else (acc, c :: cs)

/-- The largest `long` of the LP64 platform the server is built for. -/
def LONG_MAX : Int := 9223372036854775807

/-- What `strtol` returns for the mathematical value `x`: it saturates at
`LONG_MIN` and `LONG_MAX`. -/
def clamp_long (x : Int) : Int :=
  if x > LONG_MAX then LONG_MAX
  else if x < -LONG_MAX - 1 then -LONG_MAX - 1
  else x

/-- The conversion `(int) x` of a `long` to the 32-bit `int` that `row` and `col`
are (line 292): the value modulo `2^32`, read as a signed number. -/
def to_int32 (x : Int) : Int :=
  (x + 2147483648) % 4294967296 - 2147483648

/-- The `%d` directive: optional white space, optional sign, at least one digit.
The digits are converted as the C library does it, by `strtol`, and the `long`
obtained is stored into a 32-bit `int`: `4294967296` is stored as `0`. -/
def scan_int (input : List Char) : Option (Int × List Char) :=
  match skip_space input with
  | [] => none
  | c :: cs =>
    if c = '-' then
      match cs with
      | [] => none
      | d :: _ =>
        if d.isDigit then
          let r := scan_digits cs 0
          some (to_int32 (clamp_long (-(r.1 : Int))), r.2)
        else none
    else if c = '+' then
      match cs with
      | [] => none
      | d :: _ =>
        if d.isDigit then
          let r := scan_digits cs 0
          some (to_int32 (clamp_long (r.1 : Int)), r.2)
        else none
    else if c.isDigit then
      let r := scan_digits (c :: cs) 0
      some (to_int32 (clamp_long (r.1 : Int)), r.2)
    else none

/-- The call `sscanf(message, "move %d %d", &row, &col) == 2`: the literal `move`,
then two `%d` conversions into the 32-bit `int` variables `row` and `col`;
`some (row, col)` when both conversions succeed. -/
def sscanf_move (message : String) : Option (Int × Int) :=
  match message.toList with
  | 'm' :: 'o' :: 'v' :: 'e' :: rest =>
    match scan_int rest with
    | none => none
    | some (row, rest1) =>
      match scan_int rest1 with
      | none => none
      | some (col, _) => some (row, col)
  | _ => none

/-- The test `strncmp(message, word, 4) == 0` for a four-letter `word`. -/
def strncmp4 (message : String) (word : String) : Bool :=
  message.toList.take 4 == word.toList.take 4

/-! ## The server's functions -/

/-- Function `initialize_game` (lines 257-271): blank board, X to move, no clients,
inactive, fresh time stamp, socket table zeroed by `memset`. -/
def initialize_game (_g : GameState) (now : Int) : GameState :=
  { board := fun _ _ => ' '
    current_player := 0
    connected_clients := 0
    game_active := false
    last_activity := now
    client_sockets := fun _ => 0 }

/-- Function `send_to_client` (lines 450-454). -/
def send_to_client (client_socket : Int) (message : String) : List Effect :=
  [Effect.send client_socket message]

/-- Function `send_to_all_clients` (lines 420-424): one send per registered slot, in order. -/
def send_to_all_clients (g : GameState) (message : String) : List Effect :=
  (List.range g.connected_clients).map
    (fun i => Effect.send (sock_get g.client_sockets i) message)

/-- Function `print_board_to_string` (lines 426-437). -/
def print_board_to_string (g : GameState) : String :=
  let b := g.board
  let line (i : Fin 3) : String :=
    String.mk [b i 0, '|', b i 1, '|', b i 2, '\n']
  "\n  0 1 2\n" ++ "0 " ++ line 0 ++ "  -+-+-\n" ++ "1 " ++ line 1 ++ "  -+-+-\n"
    ++ "2 " ++ line 2 ++ "\n"

/-- The turn announcement used by `send_game_state` and after a move. -/
def turn_msg (g : GameState) : String :=
  "It's Player " ++ toString (g.current_player + 1) ++ "'s ("
    ++ String.mk [mark_of g.current_player] ++ ") turn\n"

/-- Function `send_game_state` (lines 439-448): broadcast the board, then whose turn it is. -/
def send_game_state (g : GameState) : List Effect :=
  send_to_all_clients g (print_board_to_string g) ++ send_to_all_clients g (turn_msg g)

/-- Function `make_move` (lines 364-378): the success flag and the state afterwards. -/
def make_move (g : GameState) (row col player : Int) : Bool × GameState :=
  if h : row < 0 ∨ row > 2 ∨ col < 0 ∨ col > 2 then
    (false, g)
  else
    let r : Fin 3 := ⟨row.toNat, by omega⟩
    let c : Fin 3 := ⟨col.toNat, by omega⟩
    if g.board r c ≠ ' ' then
      (false, g)
    else
      (true, { g with board := fun i j => if i = r ∧ j = c then mark_of player else g.board i j })

/-- Function `check_win` (lines 380-406): looks for a line of the CURRENT player's mark. -/
def check_win (g : GameState) : Bool :=
  let mark := mark_of g.current_player
  let b := g.board
  ([0, 1, 2] : List (Fin 3)).any (fun i => b i 0 == mark && b i 1 == mark && b i 2 == mark)
    || ([0, 1, 2] : List (Fin 3)).any (fun i => b 0 i == mark && b 1 i == mark && b 2 i == mark)
    || (b 0 0 == mark && b 1 1 == mark && b 2 2 == mark)
    || (b 0 2 == mark && b 1 1 == mark && b 2 0 == mark)

/-- Function `check_draw` (lines 408-418): no cell is blank. -/
def check_draw (g : GameState) : Bool :=
  ([0, 1, 2] : List (Fin 3)).all (fun i =>
    ([0, 1, 2] : List (Fin 3)).all (fun j => g.board i j != ' '))

/-- The search loop shared by `handle_client_message` (lines 278-284) and
`handle_client_disconnect` (lines 460-466): the first slot below
`connected_clients` holding `client_socket`; `none` stands for `-1`. -/
def find_client (g : GameState) (client_socket : Int) : Option Nat :=
  (List.range g.connected_clients).find?
    (fun i => sock_get g.client_sockets i == client_socket)

/-- The shifting loop of `handle_client_disconnect` (lines 476-478):
`for (i = index; i < connected_clients - 1; i++) client_sockets[i] = client_sockets[i+1]`. -/
def shift_down (cs : Fin 2 → Int) (index count : Nat) : Fin 2 → Int :=
  (List.range' index (count - 1 - index)).foldl
    (fun acc i => sock_set acc i (sock_get acc (i + 1))) cs

/-- Function `handle_client_disconnect` (lines 456-493). `reset_time` is the clock read
inside `initialize_game`. -/
def handle_client_disconnect (g : GameState) (client_socket : Int) (reset_time : Int) :
    GameState × List Effect :=
  match find_client g client_socket with
  | none => (g, [])
  | some index =>
    let g1 := { g with client_sockets := shift_down g.client_sockets index g.connected_clients }
    let g2 := { g1 with connected_clients := g1.connected_clients - 1 }
    let e := [Effect.close client_socket]
      ++ send_to_all_clients g2 "A player has disconnected.\n"
    if g2.game_active then
      let g3 := { g2 with game_active := false }
      let g4 := initialize_game g3 reset_time
      if g4.connected_clients > 0 then
        (g4, e ++ send_to_all_clients g4 "Waiting for another player to join...\n")
      else
        (g4, e)
    else
      (g2, e)

/-- The reset performed after a win or a draw (lines 317-322 and 326-331):
announce, `initialize_game`, then force the counter to 2 and the flag to true. -/
def restart_game (g : GameState) (reset_time : Int) : GameState × List Effect :=
  let e := send_to_all_clients g "Starting a new game...\n"
  let g1 := initialize_game g reset_time
  let g2 := { g1 with connected_clients := 2 }
  let g3 := { g2 with game_active := true }
  (g3, e ++ send_game_state g3)

/-- Function `handle_client_message` (lines 273-362). `now` is the clock read on entry,
`reset_time` the clock read of a later `initialize_game`, if one happens. -/
def handle_client_message (g : GameState) (client_socket : Int) (message : String)
    (now reset_time : Int) : GameState × List Effect :=
  let g0 := { g with last_activity := now }
  match find_client g0 client_socket with
  | none => (g0, [])
  | some player_index =>
    match sscanf_move message with
    | some (row, col) =>
      if (player_index : Int) ≠ g0.current_player then
        (g0, send_to_client client_socket "Not your turn! Please wait.\n")
      else
        let m := make_move g0 row col player_index
        if m.1 then
          let g1 := m.2
          let move_msg := "Player " ++ toString ((player_index : Int) + 1) ++ " ("
            ++ String.mk [mark_of player_index] ++ ") placed at position ("
            ++ toString row ++ "," ++ toString col ++ ")\n"
          let e1 := send_to_all_clients g1 move_msg ++ send_game_state g1
          if check_win g1 then
            let win_msg := "Player " ++ toString ((player_index : Int) + 1) ++ " ("
              ++ String.mk [mark_of player_index] ++ ") wins!\n"
            let r := restart_game g1 reset_time
            (r.1, e1 ++ send_to_all_clients g1 win_msg ++ r.2)
          else if check_draw g1 then
            let r := restart_game g1 reset_time
            (r.1, e1 ++ send_to_all_clients g1 "Game ended in a draw!\n" ++ r.2)
          else
            let g2 := { g1 with current_player := 1 - g1.current_player }
            (g2, e1 ++ send_to_all_clients g2 (turn_msg g2))
        else
          (g0, send_to_client client_socket "Invalid move! Try again.\n")
    | none =>
      if strncmp4 message "quit" then
        let quit_msg := "Player " ++ toString ((player_index : Int) + 1)
          ++ " has quit the game.\n"
        let r := handle_client_disconnect g0 client_socket reset_time
        (r.1, send_to_all_clients g0 quit_msg ++ r.2)
      else if strncmp4 message "help" then
        (g0, send_to_client client_socket
          ("Commands:\n" ++ "  move <row> <col> - Make a move (rows and cols are 0-2)\n"
            ++ "  quit - Exit the game\n" ++ "  help - Show this help message\n"))
      else
        (g0, send_to_client client_socket
          "Unknown command. Type 'help' for available commands.\n")

/-- The branch of `main` that handles an accepted connection `new_socket`
(lines 197-229). -/
def accept_connection (g : GameState) (new_socket : Int) (now : Int) :
    GameState × List Effect :=
  if g.connected_clients ≥ MAX_CLIENTS then
    (g, [Effect.send new_socket "Game is full. Try again later.\n", Effect.close new_socket])
  else
    let g1 := { g with client_sockets := sock_set g.client_sockets g.connected_clients new_socket }
    let g2 := { g1 with connected_clients := g1.connected_clients + 1 }
    let g3 := { g2 with last_activity := now }
    let welcome_msg := "Welcome! You are Player " ++ toString g3.connected_clients ++ " ("
      ++ String.mk [if g3.connected_clients = 1 then 'X' else 'O'] ++ ")\n"
    let e := send_to_client new_socket welcome_msg
    if g3.connected_clients = MAX_CLIENTS ∧ ¬ g3.game_active then
      let g4 := { g3 with game_active := true }
      (g4, e ++ send_to_all_clients g4 "Game is starting!\n" ++ send_game_state g4)
    else if g3.connected_clients < MAX_CLIENTS then
      (g3, e ++ send_to_client new_socket "Waiting for another player to join...\n")
    else
      (g3, e)

/-- Function `check_timeout` (lines 495-505). `current_time` is its own clock read,
`reset_time` the one inside `initialize_game`. -/
def check_timeout (g : GameState) (current_time reset_time : Int) : GameState × List Effect :=
  if g.game_active ∧ current_time - g.last_activity > TIMEOUT_SECONDS then
    let e := send_to_all_clients g "Game timed out due to inactivity.\n"
    let g1 := initialize_game g reset_time
    (({ g1 with connected_clients := 0 } : GameState), e)
  else
    (g, [])

/-! ## Sessions: the events of the main loop -/

/-- The zero-initialised global `game` before `main` runs. -/
def zero_state : GameState :=
  { board := fun _ _ => '\x00'
    current_player := 0
    connected_clients := 0
    client_sockets := fun _ => 0
    game_active := false
    last_activity := 0 }

/-- The state after the call `initialize_game()` at the top of `main` (line 52). -/
def server_start (now : Int) : GameState :=
  initialize_game zero_state now

/-- The things the main loop (lines 111-249) reacts to. -/
inductive Event where
  | connect (new_socket now : Int)
  | message (client_socket : Int) (text : String) (now reset_time : Int)
  | disconnect (client_socket : Int) (reset_time : Int)
  | tick (current_time reset_time : Int)

/-- One reaction of the main loop. -/
def step (g : GameState) : Event → GameState
  | Event.connect new_socket now => (accept_connection g new_socket now).1
  | Event.message client_socket text now reset_time =>
    (handle_client_message g client_socket text now reset_time).1
  | Event.disconnect client_socket reset_time =>
    (handle_client_disconnect g client_socket reset_time).1
  | Event.tick current_time reset_time => (check_timeout g current_time reset_time).1

/-- The state after a sequence of events. -/
def run (g : GameState) (evs : List Event) : GameState :=
  evs.foldl step g

/-- A game freshly started by two joins on the initial state. -/
def fresh_game (c0 c1 : Int) (t t0 t1 : Int) : GameState :=
  run (server_start t) [Event.connect c0 t0, Event.connect c1 t1]

/-! ## Vocabulary of the properties -/

/-- The eight lines of the board: three rows, three columns, two diagonals. -/
def lines : List (List (Fin 3 × Fin 3)) :=
  [ [(0, 0), (0, 1), (0, 2)], [(1, 0), (1, 1), (1, 2)], [(2, 0), (2, 1), (2, 2)],
    [(0, 0), (1, 0), (2, 0)], [(0, 1), (1, 1), (2, 1)], [(0, 2), (1, 2), (2, 2)],
    [(0, 0), (1, 1), (2, 2)], [(0, 2), (1, 1), (2, 0)] ]

/-- Some line is fully occupied by the mark `m`. -/
def has_line (b : Fin 3 → Fin 3 → Char) (m : Char) : Bool :=
  lines.any (fun l => l.all (fun p => b p.1 p.2 == m))

/-- Every cell of the board is blank. -/
def board_empty (b : Fin 3 → Fin 3 → Char) : Prop :=
  ∀ i j : Fin 3, b i j = ' '

/-- One message read from a client socket, with the clock values of its handling. -/
structure MoveMsg where
  client_socket : Int
  text : String
  now : Int
  reset_time : Int

/-- The state after handling the messages in order. -/
def play (g : GameState) (ms : List MoveMsg) : GameState :=
  ms.foldl
    (fun s m => (handle_client_message s m.client_socket m.text m.now m.reset_time).1) g

/-- The message is an accepted move that neither wins nor fills the board: its
sender is registered, it parses as a move, it is the sender's turn, `make_move`
succeeds, and `check_win` and `check_draw` both answer no afterwards. -/
def accepted_quiet (g : GameState) (m : MoveMsg) : Bool :=
  match find_client g m.client_socket, sscanf_move m.text with
  | some p, some (row, col) =>
    decide ((p : Int) = g.current_player)
      && (make_move { g with last_activity := m.now } row col p).1
      && !check_win (make_move { g with last_activity := m.now } row col p).2
      && !check_draw (make_move { g with last_activity := m.now } row col p).2
  | _, _ => false

/-- Every message of the sequence is an accepted, non-terminal move in the state
in which it arrives. -/
def all_quiet : GameState → List MoveMsg → Bool
  | _, [] => true
  | g, m :: ms =>
    accepted_quiet g m
      && all_quiet (handle_client_message g m.client_socket m.text m.now m.reset_time).1 ms

/-- Three opening moves: X in the centre, O in a corner, X on an edge. -/
def sample_moves : List MoveMsg :=
  [⟨4, "move 1 1", 3, 3⟩, ⟨5, "move 0 0", 4, 4⟩, ⟨4, "move 0 1", 5, 5⟩]

/-- An active game between sockets 4 (slot 0) and 5 (slot 1) in which X, to move,
completes the top row by playing (0,2). -/
def x_to_win_state : GameState :=
  { board := fun i j =>
      if i = 0 ∧ j ≠ 2 then 'X'
      else if i = 1 ∧ j ≠ 2 then 'O'
      else ' '
    current_player := 0
    connected_clients := 2
    client_sockets := fun j => if j = 0 then 4 else 5
    game_active := true
    last_activity := 0 }

/-- The server with a single client, socket 4, waiting for an opponent. -/
def lone_player_state : GameState :=
  run (server_start 0) [Event.connect 4 1]

/-- A first client joins and sends a move before anybody else has joined. -/
def early_move_trace : List Event :=
  [Event.connect 4 1, Event.message 4 "move 0 0" 2 2]

/-- What holds of every state the server can reach: an active game has exactly
two registered clients, the turn is slot 0 or slot 1, and neither X nor O
occupies a whole line. -/
def StateInv (g : GameState) : Prop :=
  (g.game_active = true → g.connected_clients = 2) ∧
  (g.current_player = 0 ∨ g.current_player = 1) ∧
  has_line g.board 'X' = false ∧ has_line g.board 'O' = false

/-- Two clients join and open the game. -/
def opening_trace : List Event :=
  [Event.connect 4 1, Event.connect 5 2]

/-- The state right after the placement made for a move command handled at
time `now`: what `make_move` returns inside `handle_client_message`. -/
def placed (g : GameState) (now : Int) (row col : Int) (player_index : Nat) : GameState :=
  (make_move { g with last_activity := now } row col player_index).2

/-- Two clients join and play until X, socket 4, can complete the top row. -/
def x_to_win_trace : List Event :=
  [Event.connect 4 1, Event.connect 5 2,
   Event.message 4 "move 0 0" 3 3, Event.message 5 "move 1 0" 4 4,
   Event.message 4 "move 0 1" 5 5, Event.message 5 "move 1 1" 6 6]

/-- The text `move_msg` built on an accepted move (lines 302-304). -/
def move_announcement (player_index : Nat) (row col : Int) : String :=
  "Player " ++ toString ((player_index : Int) + 1) ++ " ("
    ++ String.mk [mark_of player_index] ++ ") placed at position ("
    ++ toString row ++ "," ++ toString col ++ ")\n"

/-- The text `win_msg` naming the mover (lines 312-314). -/
def win_announcement (player_index : Nat) : String :=
  "Player " ++ toString ((player_index : Int) + 1) ++ " ("
    ++ String.mk [mark_of player_index] ++ ") wins!\n"

/-- The draw text (line 324). -/
def draw_announcement : String :=
  "Game ended in a draw!\n"

/-- The message was sent to both registered sockets of `g`. -/
def sent_to_both (g : GameState) (es : List Effect) (message : String) : Prop :=
  Effect.send (g.client_sockets 0) message ∈ es ∧
  Effect.send (g.client_sockets 1) message ∈ es

/-- The message was sent to nobody. -/
def sent_to_nobody (es : List Effect) (message : String) : Prop :=
  ∀ s : Int, Effect.send s message ∉ es

/-- The board has no blank cell. -/
def board_full (b : Fin 3 → Fin 3 → Char) : Prop :=
  ∀ i j : Fin 3, b i j ≠ ' '

/-- The mark of slot `p` as the specification words it: slot 0 plays X, the
other slot plays O. -/
def spec_mark (p : Nat) : Char :=
  if p = 0 then 'X' else 'O'

/-- The win announcement naming slot `p`, written out: slot 0 is Player 1 (X),
slot 1 is Player 2 (O). -/
def spec_win_text (p : Nat) : String :=
  if p = 0 then "Player 1 (X) wins!\n" else "Player 2 (O) wins!\n"

/-- The turn announcement naming slot `slot`, written out. -/
def spec_turn_text (slot : Int) : String :=
  if slot = 0 then "It's Player 1's (X) turn\n" else "It's Player 2's (O) turn\n"

/-- The draw announcement, written out. -/
def spec_draw_text : String :=
  "Game ended in a draw!\n"

/-- The board after slot `p` has marked the cell `(r, c)` of `b`, as the
specification words a placement: that cell holds the mark of `p`, every other
cell is as before. -/
def spec_board_after (b : Fin 3 → Fin 3 → Char) (r c : Fin 3) (p : Nat) :
    Fin 3 → Fin 3 → Char :=
  fun i j => if i = r ∧ j = c then spec_mark p else b i j

/-- A position in which O holds the top row while X is the player to move. -/
def o_row_state : GameState :=
  { board := fun i j =>
      if i = 0 then 'O'
      else if i = 1 ∧ j ≠ 2 then 'X'
      else if i = 2 ∧ j = 0 then 'X'
      else ' '
    current_player := 0
    connected_clients := 2
    client_sockets := fun j => if j = 0 then 4 else 5
    game_active := true
    last_activity := 0 }

end TicTacToe

namespace TicTacToe

/-! ## Theorems -/

/-- Calling `make_move` with an index outside the board. -/
theorem make_move_out_of_bounds (g : GameState) (row col player : Int)
    (h : row < 0 ∨ row > 2 ∨ col < 0 ∨ col > 2) :
    make_move g row col player = (false, g) := by
  unfold make_move
  rw [dif_pos h]

/-- Calling `make_move` with an index inside the board, written with `Fin 3` indices. -/
theorem make_move_in_bounds (g : GameState) (row col player : Int) (r c : Fin 3)
    (hr : (r.val : Int) = row) (hc : (c.val : Int) = col) :
    make_move g row col player =
      if g.board r c ≠ ' ' then (false, g)
      else (true, { g with
        board := fun i j => if i = r ∧ j = c then mark_of player else g.board i j }) := by
  have hb : ¬ (row < 0 ∨ row > 2 ∨ col < 0 ∨ col > 2) := by omega
  have hr2 : (⟨row.toNat, by omega⟩ : Fin 3) = r := by
    apply Fin.ext; simp only []; omega
  have hc2 : (⟨col.toNat, by omega⟩ : Fin 3) = c := by
    apply Fin.ext; simp only []; omega
  unfold make_move
  rw [dif_neg hb]
  simp only [hr2, hc2]

/-- Indices inside the board are values of `Fin 3`. -/
theorem in_bounds_fin (row : Int) (h0 : 0 ≤ row) (h2 : row ≤ 2) :
    ∃ r : Fin 3, (r.val : Int) = row :=
  ⟨⟨row.toNat, by omega⟩, by simp only []; omega⟩

/-- C4. `make_move` succeeds exactly when `row` and `col` lie in `0..2` and the
addressed cell is blank; on success the addressed cell holds the player's mark
(`X` for player 0, `O` otherwise) and nothing else in the state changes; on
failure the state is returned as it was. -/
theorem make_move_spec (g : GameState) (row col player : Int) :
    ((make_move g row col player).1 = true ↔
      (0 ≤ row ∧ row ≤ 2 ∧ 0 ≤ col ∧ col ≤ 2 ∧
        ∃ r c : Fin 3, (r.val : Int) = row ∧ (c.val : Int) = col ∧ g.board r c = ' ')) ∧
    (∀ r c : Fin 3, (r.val : Int) = row → (c.val : Int) = col → g.board r c = ' ' →
      (make_move g row col player).1 = true ∧
      (make_move g row col player).2.board r c = (if player = 0 then 'X' else 'O') ∧
      (∀ i j : Fin 3, (i ≠ r ∨ j ≠ c) →
        (make_move g row col player).2.board i j = g.board i j) ∧
      (make_move g row col player).2.current_player = g.current_player ∧
      (make_move g row col player).2.connected_clients = g.connected_clients ∧
      (make_move g row col player).2.client_sockets = g.client_sockets ∧
      (make_move g row col player).2.game_active = g.game_active ∧
      (make_move g row col player).2.last_activity = g.last_activity) ∧
    ((make_move g row col player).1 = false → (make_move g row col player).2 = g) := by
  refine ⟨⟨?_, ?_⟩, ?_, ?_⟩
  · intro h
    by_cases hb : row < 0 ∨ row > 2 ∨ col < 0 ∨ col > 2
    · rw [make_move_out_of_bounds g row col player hb] at h
      simp at h
    · obtain ⟨r, hr⟩ := in_bounds_fin row (by omega) (by omega)
      obtain ⟨c, hc⟩ := in_bounds_fin col (by omega) (by omega)
      refine ⟨by omega, by omega, by omega, by omega, r, c, hr, hc, ?_⟩
      rw [make_move_in_bounds g row col player r c hr hc] at h
      by_contra hne
      rw [if_pos hne] at h
      simp at h
  · rintro ⟨_, _, _, _, r, c, hr, hc, he⟩
    rw [make_move_in_bounds g row col player r c hr hc]
    simp [he]
  · intro r c hr hc he
    rw [make_move_in_bounds g row col player r c hr hc]
    have hne : ¬ (g.board r c ≠ ' ') := by simp [he]
    rw [if_neg hne]
    refine ⟨rfl, by simp [mark_of], ?_, rfl, rfl, rfl, rfl, rfl⟩
    intro i j hij
    have : ¬ (i = r ∧ j = c) := by tauto
    simp [this]
  · intro h
    by_cases hb : row < 0 ∨ row > 2 ∨ col < 0 ∨ col > 2
    · rw [make_move_out_of_bounds g row col player hb]
    · obtain ⟨r, hr⟩ := in_bounds_fin row (by omega) (by omega)
      obtain ⟨c, hc⟩ := in_bounds_fin col (by omega) (by omega)
      rw [make_move_in_bounds g row col player r c hr hc] at h ⊢
      by_cases hne : g.board r c ≠ ' '
      · rw [if_pos hne]
      · rw [if_neg hne] at h
        simp at h

/-- C9 (as stated, refuted). With O holding the whole top row and X to move,
`check_win` reports no winner although a line is fully occupied by one mark. -/
theorem check_win_ignores_other_mark :
    ¬ (check_win o_row_state = true ↔
        (has_line o_row_state.board 'X' = true ∨ has_line o_row_state.board 'O' = true)) := by
  decide

/-- C9 (amended). `check_win` reports a winner exactly when one of the eight
lines is fully occupied by the mark of the current player (`X` when
`current_player = 0`, `O` otherwise); in particular it reports no winner on any
board without a complete line of X or of O, such as the empty board or a full
drawn board. -/
theorem check_win_spec (g : GameState) :
    (check_win g = true ↔ has_line g.board (mark_of g.current_player) = true) ∧
    (has_line g.board 'X' = false ∧ has_line g.board 'O' = false → check_win g = false) := by
  have key : check_win g = has_line g.board (mark_of g.current_player) := by
    simp only [check_win, has_line, lines, List.any_cons, List.any_nil, List.all_cons,
      List.all_nil, Bool.or_false, Bool.and_true, Bool.or_assoc, Bool.and_assoc]
  refine ⟨by rw [key], ?_⟩
  rintro ⟨hx, ho⟩
  rw [key]
  unfold mark_of
  split
  · exact hx
  · exact ho

/-- C10. With `MAX_CLIENTS` connections registered a newcomer gets the capacity
message and is closed, and the state is returned untouched; with fewer, the
newcomer is stored at the slot whose index is the previous count, the other slot
is untouched and the count grows by one; the registry changes in no other case. -/
theorem accept_connection_spec (g : GameState) (new_socket now : Int) :
    (g.connected_clients = 2 →
      accept_connection g new_socket now =
        (g, [Effect.send new_socket "Game is full. Try again later.\n",
             Effect.close new_socket])) ∧
    (g.connected_clients < 2 →
      (accept_connection g new_socket now).1.connected_clients = g.connected_clients + 1 ∧
      sock_get (accept_connection g new_socket now).1.client_sockets g.connected_clients
        = new_socket ∧
      (∀ j : Fin 2, j.val ≠ g.connected_clients →
        (accept_connection g new_socket now).1.client_sockets j = g.client_sockets j)) ∧
    (((accept_connection g new_socket now).1.connected_clients ≠ g.connected_clients ∨
        (accept_connection g new_socket now).1.client_sockets ≠ g.client_sockets) →
      g.connected_clients < 2) := by
  refine ⟨?_, ?_, ?_⟩
  · intro h
    simp [accept_connection, MAX_CLIENTS, h]
  · intro h
    have hn : ¬ (g.connected_clients ≥ MAX_CLIENTS) := by simp [MAX_CLIENTS]; omega
    unfold accept_connection
    rw [if_neg hn]
    simp only []
    split
    · refine ⟨rfl, ?_, ?_⟩
      · simp [sock_get, sock_set, h]
      · intro j hj; simp [sock_set, hj]
    · split
      · refine ⟨rfl, ?_, ?_⟩
        · simp [sock_get, sock_set, h]
        · intro j hj; simp [sock_set, hj]
      · refine ⟨rfl, ?_, ?_⟩
        · simp [sock_get, sock_set, h]
        · intro j hj; simp [sock_set, hj]
  · intro h
    by_contra hn
    have hge : g.connected_clients ≥ MAX_CLIENTS := by simp [MAX_CLIENTS]; omega
    have : accept_connection g new_socket now =
        (g, [Effect.send new_socket "Game is full. Try again later.\n",
             Effect.close new_socket]) := by
      unfold accept_connection
      rw [if_pos hge]
    rw [this] at h
    simp at h

/-- The slot found by the search loop lies below `connected_clients` and holds
the socket searched for. -/
theorem find_client_some (g : GameState) (client_socket : Int) (p : Nat)
    (h : find_client g client_socket = some p) :
    p < g.connected_clients ∧ sock_get g.client_sockets p = client_socket := by
  unfold find_client at h
  have h1 := List.mem_of_find?_eq_some h
  have h2 := List.find?_some h
  exact ⟨List.mem_range.mp h1, by simpa using h2⟩

/-- A move command from a registered sender whose slot is not the current turn. -/
theorem handle_move_not_turn (g : GameState) (client_socket : Int) (message : String)
    (now reset_time : Int) (p : Nat) (row col : Int)
    (hp : find_client g client_socket = some p)
    (hm : sscanf_move message = some (row, col))
    (hturn : (p : Int) ≠ g.current_player) :
    handle_client_message g client_socket message now reset_time =
      ({ g with last_activity := now },
        [Effect.send client_socket "Not your turn! Please wait.\n"]) := by
  have hp2 : find_client { g with last_activity := now } client_socket = some p := hp
  unfold handle_client_message
  simp only [hp2, hm]
  rw [if_pos hturn]
  rfl

/-- A move command from the player to move, as a function of what `make_move`,
`check_win` and `check_draw` answer. -/
theorem handle_move_on_turn (g : GameState) (client_socket : Int) (message : String)
    (now reset_time : Int) (p : Nat) (row col : Int)
    (hp : find_client g client_socket = some p)
    (hm : sscanf_move message = some (row, col))
    (hturn : (p : Int) = g.current_player) :
    (handle_client_message g client_socket message now reset_time).1 =
      if (make_move { g with last_activity := now } row col p).1 then
        if check_win (make_move { g with last_activity := now } row col p).2 then
          (restart_game (make_move { g with last_activity := now } row col p).2 reset_time).1
        else if check_draw (make_move { g with last_activity := now } row col p).2 then
          (restart_game (make_move { g with last_activity := now } row col p).2 reset_time).1
        else
          { (make_move { g with last_activity := now } row col p).2 with
            current_player :=
              1 - (make_move { g with last_activity := now } row col p).2.current_player }
      else { g with last_activity := now } := by
  have hp2 : find_client { g with last_activity := now } client_socket = some p := hp
  have hturn2 : ¬ ((p : Int) ≠ g.current_player) := by simp [hturn]
  unfold handle_client_message
  simp only [hp2, hm]
  rw [if_neg hturn2]
  split
  · split
    · rfl
    · split
      · rfl
      · rfl
  · rfl

/-- C8. When a registered connection of an active game disconnects, the game is
no longer active afterwards, every cell is blank, the turn is slot 0, and every
other registered connection has been sent the disconnect notice. -/
theorem disconnect_active_resets (g : GameState) (client_socket reset_time : Int) (index : Nat)
    (hact : g.game_active = true)
    (hwf : g.connected_clients ≤ MAX_CLIENTS)
    (hreg : find_client g client_socket = some index) :
    (handle_client_disconnect g client_socket reset_time).1.game_active = false ∧
    board_empty (handle_client_disconnect g client_socket reset_time).1.board ∧
    (handle_client_disconnect g client_socket reset_time).1.current_player = 0 ∧
    (∀ j : Nat, j < g.connected_clients → j ≠ index →
      Effect.send (sock_get g.client_sockets j) "A player has disconnected.\n"
        ∈ (handle_client_disconnect g client_socket reset_time).2) := by
  obtain ⟨hlt, _⟩ := find_client_some g client_socket index hreg
  have hres : handle_client_disconnect g client_socket reset_time =
      (initialize_game g reset_time,
        [Effect.close client_socket] ++
          send_to_all_clients
            { g with
              client_sockets := shift_down g.client_sockets index g.connected_clients
              connected_clients := g.connected_clients - 1 }
            "A player has disconnected.\n") := by
    unfold handle_client_disconnect
    simp only [hreg, hact, if_true]
    simp [initialize_game]
  rw [hres]
  refine ⟨rfl, fun _ _ => rfl, rfl, ?_⟩
  intro j hj hne
  unfold MAX_CLIENTS at hwf
  have hc : g.connected_clients = 2 := by omega
  have hcases : (index = 0 ∧ j = 1) ∨ (index = 1 ∧ j = 0) := by omega
  rcases hcases with ⟨hi, hj1⟩ | ⟨hi, hj0⟩
  · subst hi; subst hj1
    simp [send_to_all_clients, hc, shift_down, List.range', sock_set, sock_get]
  · subst hi; subst hj0
    simp [send_to_all_clients, hc, shift_down, List.range', sock_set, sock_get]

/-- The function `make_move` never touches the turn. -/
theorem make_move_current_player (g : GameState) (row col player : Int) :
    (make_move g row col player).2.current_player = g.current_player := by
  by_cases hb : row < 0 ∨ row > 2 ∨ col < 0 ∨ col > 2
  · rw [make_move_out_of_bounds g row col player hb]
  · obtain ⟨r, hr⟩ := in_bounds_fin row (by omega) (by omega)
    obtain ⟨c, hc⟩ := in_bounds_fin col (by omega) (by omega)
    rw [make_move_in_bounds g row col player r c hr hc]
    split <;> rfl

/-- Accepting a connection never touches the turn. -/
theorem accept_connection_current_player (g : GameState) (new_socket now : Int) :
    (accept_connection g new_socket now).1.current_player = g.current_player := by
  unfold accept_connection
  split
  · rfl
  · simp only []
    split
    · rfl
    · split <;> rfl

/-- An accepted non-terminal move comes from the slot whose turn it is and hands
the turn to the other slot. -/
theorem accepted_quiet_step (g : GameState) (m : MoveMsg) (h : accepted_quiet g m = true) :
    ∃ p : Nat, find_client g m.client_socket = some p ∧ (p : Int) = g.current_player ∧
      (handle_client_message g m.client_socket m.text m.now m.reset_time).1.current_player
        = 1 - g.current_player := by
  unfold accepted_quiet at h
  cases hp : find_client g m.client_socket with
  | none => simp [hp] at h
  | some p =>
    cases hm : sscanf_move m.text with
    | none => simp [hp, hm] at h
    | some rc =>
      obtain ⟨row, col⟩ := rc
      simp only [hp, hm, Bool.and_eq_true, decide_eq_true_eq, Bool.not_eq_true_eq_eq_false,
        Bool.not_eq_eq_eq_not, Bool.not_true] at h
      obtain ⟨⟨⟨hturn, hok⟩, hwin⟩, hdraw⟩ := h
      refine ⟨p, rfl, hturn, ?_⟩
      rw [handle_move_on_turn g m.client_socket m.text m.now m.reset_time p row col hp hm hturn]
      simp only [hok, hwin, hdraw, if_true, Bool.false_eq_true, if_false]
      simp only [make_move_current_player]

/-- Alternation from any state whose turn is `n mod 2`. -/
theorem turn_alternates_from (ms : List MoveMsg) :
    ∀ (g : GameState) (n : Nat), g.current_player = ((n % 2 : Nat) : Int) →
      all_quiet g ms = true →
      ∀ (k : Nat) (hk : k < ms.length),
        find_client (play g (ms.take k)) (ms.get ⟨k, hk⟩).client_socket = some ((n + k) % 2) ∧
        (play g (ms.take k)).current_player = (((n + k) % 2 : Nat) : Int) ∧
        (play g (ms.take (k + 1))).current_player = (((n + k + 1) % 2 : Nat) : Int) := by
  induction ms with
  | nil => intro g n _ _ k hk; simp at hk
  | cons m ms ih =>
    intro g n hcur hq k hk
    simp only [all_quiet, Bool.and_eq_true] at hq
    obtain ⟨hm, hrest⟩ := hq
    obtain ⟨p, hp, hturn, hnext⟩ := accepted_quiet_step g m hm
    have hnext2 : (handle_client_message g m.client_socket m.text m.now m.reset_time).1.current_player
        = (((n + 1) % 2 : Nat) : Int) := by
      rw [hnext, hcur]; push_cast; omega
    cases k with
    | zero =>
      refine ⟨?_, ?_, ?_⟩
      · have hpn : p = n % 2 := by
          have : (p : Int) = ((n % 2 : Nat) : Int) := by rw [hturn, hcur]
          exact_mod_cast this
        simpa [play, hpn] using hp
      · simpa [play] using hcur
      · simpa [play] using hnext2
    | succ k =>
      have hk2 : k < ms.length := by simpa using hk
      have := ih _ (n + 1) hnext2 hrest k hk2
      have e1 : n + 1 + k = n + (k + 1) := by omega
      rw [e1] at this
      simpa [play] using this

/-- C3. In a game freshly started by two joins on the initial state, along any
sequence of accepted moves none of which wins or fills the board, the `k`-th
accepted move is made by slot `k mod 2` while the turn is `k mod 2`, and after it
the turn is `(k + 1) mod 2`. -/
theorem turn_alternates (c0 c1 t t0 t1 : Int) (ms : List MoveMsg)
    (h : all_quiet (fresh_game c0 c1 t t0 t1) ms = true) (k : Nat) (hk : k < ms.length) :
    find_client (play (fresh_game c0 c1 t t0 t1) (ms.take k)) (ms.get ⟨k, hk⟩).client_socket
      = some (k % 2) ∧
    (play (fresh_game c0 c1 t t0 t1) (ms.take k)).current_player = ((k % 2 : Nat) : Int) ∧
    (play (fresh_game c0 c1 t t0 t1) (ms.take (k + 1))).current_player
      = (((k + 1) % 2 : Nat) : Int) := by
  have hstart : (fresh_game c0 c1 t t0 t1).current_player = ((0 % 2 : Nat) : Int) := by
    simp [fresh_game, run, step, accept_connection_current_player, server_start, initialize_game]
  have := turn_alternates_from ms (fresh_game c0 c1 t t0 t1) 0 hstart h k hk
  simpa using this

/-- C3, instance: the third of three opening moves (index 2) comes from slot 0,
socket 4, and hands the turn to slot 1. -/
theorem turn_alternates_witness :
    all_quiet (fresh_game 4 5 0 1 2) sample_moves = true ∧
    find_client (play (fresh_game 4 5 0 1 2) (sample_moves.take 2)) 4 = some 0 ∧
    (play (fresh_game 4 5 0 1 2) (sample_moves.take 2)).current_player = 0 ∧
    (play (fresh_game 4 5 0 1 2) (sample_moves.take 3)).current_player = 1 :=
  ⟨by decide, turn_alternates 4 5 0 1 2 sample_moves (by decide) 2 (by decide)⟩

/-- C8, instance: socket 4 leaves an active game against socket 5. -/
theorem disconnect_active_resets_witness :
    o_row_state.game_active = true ∧
    o_row_state.connected_clients ≤ MAX_CLIENTS ∧
    find_client o_row_state 4 = some 0 ∧
    (handle_client_disconnect o_row_state 4 9).1.game_active = false ∧
    board_empty (handle_client_disconnect o_row_state 4 9).1.board ∧
    (handle_client_disconnect o_row_state 4 9).1.current_player = 0 ∧
    Effect.send 5 "A player has disconnected.\n" ∈ (handle_client_disconnect o_row_state 4 9).2 :=
  have h := disconnect_active_resets o_row_state 4 9 0 (by decide) (by decide) (by decide)
  ⟨by decide, by decide, by decide, h.1, h.2.1, h.2.2.1, h.2.2.2 1 (by decide) (by decide)⟩

/-- Every accepted move that wins or draws ends in the state built by
`restart_game`: blank board, turn 0, active, counter 2, and a socket table that
`initialize_game` has zeroed. -/
theorem win_or_draw_restarts (g : GameState) (client_socket : Int) (message : String)
    (now reset_time : Int) (p : Nat) (row col : Int)
    (hp : find_client g client_socket = some p)
    (hm : sscanf_move message = some (row, col))
    (hturn : (p : Int) = g.current_player)
    (hok : (make_move { g with last_activity := now } row col p).1 = true)
    (hend : check_win (make_move { g with last_activity := now } row col p).2 = true ∨
      check_draw (make_move { g with last_activity := now } row col p).2 = true) :
    (handle_client_message g client_socket message now reset_time).1 =
      { board := fun _ _ => ' '
        current_player := 0
        connected_clients := 2
        client_sockets := fun _ => 0
        game_active := true
        last_activity := reset_time } := by
  rw [handle_move_on_turn g client_socket message now reset_time p row col hp hm hturn]
  simp only [hok, if_true]
  rcases hend with hw | hd
  · simp only [hw, if_true]; rfl
  · simp only [hd, if_true]
    split <;> rfl

/-- C1 (evaluation at the failing input). Sockets 4 and 5 hold slots 0 and 1 and
socket 4 completes the top row. Afterwards the board is blank, the turn is slot 0,
the game is active and the counter is 2, but both slots of the socket table hold
0: sockets 4 and 5 are no longer found in the registry. -/
theorem registry_zeroed_after_win :
    find_client x_to_win_state 4 = some 0 ∧
    find_client x_to_win_state 5 = some 1 ∧
    board_empty (handle_client_message x_to_win_state 4 "move 0 2" 10 10).1.board ∧
    (handle_client_message x_to_win_state 4 "move 0 2" 10 10).1.current_player = 0 ∧
    (handle_client_message x_to_win_state 4 "move 0 2" 10 10).1.game_active = true ∧
    (handle_client_message x_to_win_state 4 "move 0 2" 10 10).1.connected_clients = 2 ∧
    (handle_client_message x_to_win_state 4 "move 0 2" 10 10).1.client_sockets 0 = 0 ∧
    (handle_client_message x_to_win_state 4 "move 0 2" 10 10).1.client_sockets 1 = 0 ∧
    find_client (handle_client_message x_to_win_state 4 "move 0 2" 10 10).1 4 = none ∧
    find_client (handle_client_message x_to_win_state 4 "move 0 2" 10 10).1 5 = none := by
  have h := win_or_draw_restarts x_to_win_state 4 "move 0 2" 10 10 0 0 2
    (by decide) (by decide) (by decide) (by decide) (Or.inl (by decide))
  rw [h]
  refine ⟨by decide, by decide, fun _ _ => rfl, rfl, rfl, rfl, rfl, rfl, by decide, by decide⟩

/-- C2 (evaluation at the failing input). The first client joins and plays (0,0)
while it is alone; when the second client joins, the game turns active with an X
already on the board and slot 1 to move. -/
theorem game_starts_on_used_board :
    (run (server_start 0) early_move_trace).game_active = false ∧
    (run (server_start 0) early_move_trace).connected_clients = 1 ∧
    (step (run (server_start 0) early_move_trace) (Event.connect 5 3)).game_active = true ∧
    (step (run (server_start 0) early_move_trace) (Event.connect 5 3)).connected_clients = 2 ∧
    (step (run (server_start 0) early_move_trace) (Event.connect 5 3)).board 0 0 = 'X' ∧
    (step (run (server_start 0) early_move_trace) (Event.connect 5 3)).current_player = 1 := by
  decide

/-- C6 (evaluation at the failing input). With one client connected and the game
not active, that client's `move 0 0` is carried out: the cell receives an X and
the turn passes to slot 1, while the game stays inactive. -/
theorem move_accepted_while_inactive :
    lone_player_state.game_active = false ∧
    lone_player_state.connected_clients = 1 ∧
    find_client lone_player_state 4 = some 0 ∧
    lone_player_state.board 0 0 = ' ' ∧
    lone_player_state.current_player = 0 ∧
    (handle_client_message lone_player_state 4 "move 0 0" 2 2).1.board 0 0 = 'X' ∧
    (handle_client_message lone_player_state 4 "move 0 0" 2 2).1.current_player = 1 ∧
    (handle_client_message lone_player_state 4 "move 0 0" 2 2).1.game_active = false := by
  decide

/-- In an active game the disconnect of a registered connection ends in the
state built by `initialize_game`: the counter is 0 and the socket table zeroed,
whoever else was registered. -/
theorem disconnect_active_empties_registry (g : GameState) (client_socket reset_time : Int)
    (index : Nat) (hact : g.game_active = true)
    (hreg : find_client g client_socket = some index) :
    (handle_client_disconnect g client_socket reset_time).1 = initialize_game g reset_time := by
  unfold handle_client_disconnect
  simp only [hreg, hact, if_true]
  simp [initialize_game]

/-- C7 (evaluation at the failing input). Sockets 4 and 5 are registered in an
active game and socket 4 disconnects. The counter drops from 2 to 0 instead of 1,
and the survivor, socket 5, is not in slot 0: it is no longer registered at all. -/
theorem disconnect_drops_survivor :
    (fresh_game 4 5 0 1 2).game_active = true ∧
    (fresh_game 4 5 0 1 2).connected_clients = 2 ∧
    find_client (fresh_game 4 5 0 1 2) 4 = some 0 ∧
    find_client (fresh_game 4 5 0 1 2) 5 = some 1 ∧
    (handle_client_disconnect (fresh_game 4 5 0 1 2) 4 9).1.connected_clients = 0 ∧
    (handle_client_disconnect (fresh_game 4 5 0 1 2) 4 9).1.client_sockets 0 = 0 ∧
    find_client (handle_client_disconnect (fresh_game 4 5 0 1 2) 4 9).1 5 = none := by
  decide

/-! ### Reachable states -/

/-- The state left by `handle_client_disconnect`: untouched (unknown socket), the
state built by `initialize_game` (active game), or the same inactive state with
the registry compacted. -/
theorem handle_client_disconnect_state (g : GameState) (client_socket reset_time : Int) :
    (handle_client_disconnect g client_socket reset_time).1 = g ∨
    (handle_client_disconnect g client_socket reset_time).1 = initialize_game g reset_time ∨
    (g.game_active = false ∧ ∃ index : Nat,
      (handle_client_disconnect g client_socket reset_time).1 =
        { g with
          client_sockets := shift_down g.client_sockets index g.connected_clients
          connected_clients := g.connected_clients - 1 }) := by
  cases hreg : find_client g client_socket with
  | none =>
    left
    unfold handle_client_disconnect
    simp only [hreg]
  | some index =>
    cases hact : g.game_active with
    | true =>
      right; left
      exact disconnect_active_empties_registry g client_socket reset_time index hact hreg
    | false =>
      right; right
      refine ⟨rfl, index, ?_⟩
      unfold handle_client_disconnect
      simp only [hreg, hact]
      rfl

/-- The state left by `handle_client_message`: only the time stamp refreshed, the
restarted game, the move carried out with the turn flipped, or what the `quit`
path's `handle_client_disconnect` leaves. -/
theorem handle_client_message_state (g : GameState) (client_socket : Int) (message : String)
    (now reset_time : Int) :
    (handle_client_message g client_socket message now reset_time).1
        = { g with last_activity := now } ∨
    (handle_client_message g client_socket message now reset_time).1
        = (restart_game g reset_time).1 ∨
    (∃ (p : Nat) (row col : Int), (p : Int) = g.current_player ∧
      (make_move { g with last_activity := now } row col p).1 = true ∧
      check_win (make_move { g with last_activity := now } row col p).2 = false ∧
      (handle_client_message g client_socket message now reset_time).1 =
        { (make_move { g with last_activity := now } row col p).2 with
          current_player :=
            1 - (make_move { g with last_activity := now } row col p).2.current_player }) ∨
    (handle_client_message g client_socket message now reset_time).1
        = (handle_client_disconnect { g with last_activity := now }
            client_socket reset_time).1 := by
  cases hp : find_client g client_socket with
  | none =>
    left
    have hp2 : find_client { g with last_activity := now } client_socket = none := hp
    unfold handle_client_message
    simp only [hp2]
  | some p =>
    have hp2 : find_client { g with last_activity := now } client_socket = some p := hp
    cases hm : sscanf_move message with
    | none =>
      unfold handle_client_message
      simp only [hp2, hm]
      split
      · right; right; right; rfl
      · split
        · left; rfl
        · left; rfl
    | some rc =>
      obtain ⟨row, col⟩ := rc
      by_cases hturn : (p : Int) = g.current_player
      · rw [handle_move_on_turn g client_socket message now reset_time p row col hp hm hturn]
        cases hok : (make_move { g with last_activity := now } row col p).1 with
        | false => left; simp
        | true =>
          cases hw : check_win (make_move { g with last_activity := now } row col p).2 with
          | true => right; left; simp [restart_game, initialize_game]
          | false =>
            cases hd : check_draw (make_move { g with last_activity := now } row col p).2 with
            | true => right; left; simp [restart_game, initialize_game]
            | false =>
              right; right; left
              exact ⟨p, row, col, hturn, hok, hw, by simp⟩
      · left
        rw [handle_move_not_turn g client_socket message now reset_time p row col hp hm hturn]

/-- The answer of `check_win` is a complete line of the current player's mark. -/
theorem check_win_iff_has_line (g : GameState) :
    check_win g = true ↔ has_line g.board (mark_of g.current_player) = true := by
  have key : check_win g = has_line g.board (mark_of g.current_player) := by
    simp only [check_win, has_line, lines, List.any_cons, List.any_nil, List.all_cons,
      List.all_nil, Bool.or_false, Bool.and_true, Bool.or_assoc, Bool.and_assoc]
  rw [key]

/-- Apart from the board, `make_move` leaves every field as it was. -/
theorem make_move_frame (g : GameState) (row col player : Int) :
    (make_move g row col player).2.current_player = g.current_player ∧
    (make_move g row col player).2.connected_clients = g.connected_clients ∧
    (make_move g row col player).2.client_sockets = g.client_sockets ∧
    (make_move g row col player).2.game_active = g.game_active ∧
    (make_move g row col player).2.last_activity = g.last_activity := by
  by_cases hb : row < 0 ∨ row > 2 ∨ col < 0 ∨ col > 2
  · rw [make_move_out_of_bounds g row col player hb]; exact ⟨rfl, rfl, rfl, rfl, rfl⟩
  · obtain ⟨r, hr⟩ := in_bounds_fin row (by omega) (by omega)
    obtain ⟨c, hc⟩ := in_bounds_fin col (by omega) (by omega)
    rw [make_move_in_bounds g row col player r c hr hc]
    split <;> exact ⟨rfl, rfl, rfl, rfl, rfl⟩

/-- A line of `m` on `b2` is a line of `m` on `b1` when every `m` of `b2` is an `m` of `b1`. -/
theorem has_line_mono (b1 b2 : Fin 3 → Fin 3 → Char) (m : Char)
    (h : ∀ i j, b2 i j = m → b1 i j = m) (hl : has_line b2 m = true) :
    has_line b1 m = true := by
  unfold has_line at hl ⊢
  rw [List.any_eq_true] at hl ⊢
  obtain ⟨l, hmem, hall⟩ := hl
  refine ⟨l, hmem, ?_⟩
  rw [List.all_eq_true] at hall ⊢
  intro q hq
  have := hall q hq
  simp only [beq_iff_eq] at this ⊢
  exact h _ _ this

/-- A successful placement creates no line of a mark other than the one placed. -/
theorem placement_keeps_other_mark (g : GameState) (row col player : Int) (m : Char)
    (hok : (make_move g row col player).1 = true) (hm : m ≠ mark_of player)
    (hno : has_line g.board m = false) :
    has_line (make_move g row col player).2.board m = false := by
  by_cases hb : row < 0 ∨ row > 2 ∨ col < 0 ∨ col > 2
  · rw [make_move_out_of_bounds g row col player hb]; exact hno
  · obtain ⟨r, hr⟩ := in_bounds_fin row (by omega) (by omega)
    obtain ⟨c, hc⟩ := in_bounds_fin col (by omega) (by omega)
    rw [make_move_in_bounds g row col player r c hr hc] at hok ⊢
    by_cases hne : g.board r c ≠ ' '
    · rw [if_pos hne] at hok; simp at hok
    · rw [if_neg hne]
      by_contra hl
      have hl2 : has_line (fun i j => if i = r ∧ j = c then mark_of player else g.board i j) m
          = true := by simpa using hl
      have := has_line_mono g.board _ m (fun i j hij => by
        by_cases hrc : i = r ∧ j = c
        · simp only [hrc, and_self, if_true] at hij
          exact absurd hij.symm hm
        · simpa [hrc] using hij) hl2
      rw [hno] at this
      simp at this

/-- The state built by `initialize_game` satisfies the invariant. -/
theorem inv_initialize_game (g : GameState) (now : Int) : StateInv (initialize_game g now) := by
  refine ⟨?_, Or.inl rfl, ?_, ?_⟩
  · intro h; simp [initialize_game] at h
  · show has_line (fun _ _ => ' ') 'X' = false
    decide
  · show has_line (fun _ _ => ' ') 'O' = false
    decide

/-- The restarted game satisfies the invariant. -/
theorem inv_restart_game (g : GameState) (reset_time : Int) :
    StateInv (restart_game g reset_time).1 := by
  refine ⟨fun _ => rfl, Or.inl rfl, ?_, ?_⟩
  · show has_line (fun _ _ => ' ') 'X' = false
    decide
  · show has_line (fun _ _ => ' ') 'O' = false
    decide

/-- The search loop does not depend on the time stamp, nor does the invariant. -/
theorem inv_touch (g : GameState) (now : Int) (h : StateInv g) :
    StateInv { g with last_activity := now } := h

/-- The function `handle_client_disconnect` preserves the invariant. -/
theorem inv_handle_client_disconnect (g : GameState) (client_socket reset_time : Int)
    (h : StateInv g) : StateInv (handle_client_disconnect g client_socket reset_time).1 := by
  rcases handle_client_disconnect_state g client_socket reset_time with e | e | ⟨hact, index, e⟩
  · rw [e]; exact h
  · rw [e]; exact inv_initialize_game g reset_time
  · rw [e]
    refine ⟨?_, h.2.1, h.2.2.1, h.2.2.2⟩
    intro ha
    have : g.game_active = true := ha
    rw [hact] at this
    simp at this

/-- The function `handle_client_message` preserves the invariant. -/
theorem inv_handle_client_message (g : GameState) (client_socket : Int) (message : String)
    (now reset_time : Int) (h : StateInv g) :
    StateInv (handle_client_message g client_socket message now reset_time).1 := by
  rcases handle_client_message_state g client_socket message now reset_time with
    e | e | ⟨p, row, col, hturn, hok, hw, e⟩ | e
  · rw [e]; exact inv_touch g now h
  · rw [e]; exact inv_restart_game g reset_time
  · rw [e]
    have hcur := make_move_current_player { g with last_activity := now } row col p
    have hcur2 : (make_move { g with last_activity := now } row col p).2.current_player
        = g.current_player := hcur
    have hsame : (make_move { g with last_activity := now } row col p).2.game_active
        = g.game_active ∧
        (make_move { g with last_activity := now } row col p).2.connected_clients
        = g.connected_clients := by
      by_cases hb : row < 0 ∨ row > 2 ∨ col < 0 ∨ col > 2
      · rw [make_move_out_of_bounds _ row col p hb]; exact ⟨rfl, rfl⟩
      · obtain ⟨r, hr⟩ := in_bounds_fin row (by omega) (by omega)
        obtain ⟨c, hc⟩ := in_bounds_fin col (by omega) (by omega)
        rw [make_move_in_bounds _ row col p r c hr hc]
        split <;> exact ⟨rfl, rfl⟩
    have hline := check_win_iff_has_line (make_move { g with last_activity := now } row col p).2
    have hown : has_line (make_move { g with last_activity := now } row col p).2.board
        (mark_of g.current_player) = false := by
      rw [hcur2] at hline
      cases hl : has_line (make_move { g with last_activity := now } row col p).2.board
          (mark_of g.current_player) with
      | false => rfl
      | true => rw [hline.mpr hl] at hw; simp at hw
    have hother : ∀ m : Char, m ≠ mark_of g.current_player → has_line g.board m = false →
        has_line (make_move { g with last_activity := now } row col p).2.board m = false := by
      intro m hm hno
      exact placement_keeps_other_mark { g with last_activity := now } row col p m hok
        (by rw [hturn]; exact hm) hno
    refine ⟨?_, ?_, ?_, ?_⟩
    · intro ha
      have ha2 : (make_move { g with last_activity := now } row col p).2.game_active = true := ha
      rw [hsame.1] at ha2
      have := h.1 ha2
      show (make_move { g with last_activity := now } row col p).2.connected_clients = 2
      rw [hsame.2]; exact this
    · show 1 - (make_move { g with last_activity := now } row col p).2.current_player = 0 ∨
        1 - (make_move { g with last_activity := now } row col p).2.current_player = 1
      rw [hcur2]
      rcases h.2.1 with h0 | h1
      · right; rw [h0]; rfl
      · left; rw [h1]; rfl
    · show has_line (make_move { g with last_activity := now } row col p).2.board 'X' = false
      rcases h.2.1 with h0 | h1
      · have : mark_of g.current_player = 'X' := by rw [h0]; rfl
        rw [this] at hown; exact hown
      · exact hother 'X' (by rw [h1]; decide) h.2.2.1
    · show has_line (make_move { g with last_activity := now } row col p).2.board 'O' = false
      rcases h.2.1 with h0 | h1
      · exact hother 'O' (by rw [h0]; decide) h.2.2.2
      · have : mark_of g.current_player = 'O' := by rw [h1]; rfl
        rw [this] at hown; exact hown
  · rw [e]
    exact inv_handle_client_disconnect _ client_socket reset_time (inv_touch g now h)

/-- Accepting a connection preserves the invariant. -/
theorem inv_accept_connection (g : GameState) (new_socket now : Int) (h : StateInv g) :
    StateInv (accept_connection g new_socket now).1 := by
  unfold accept_connection
  split
  · exact h
  · rename_i hlt
    simp only []
    have hcount : g.connected_clients < 2 := by
      unfold MAX_CLIENTS at hlt; omega
    have hinactive : g.game_active = false := by
      cases ha : g.game_active with
      | false => rfl
      | true => have := h.1 ha; omega
    split
    · rename_i hstart
      refine ⟨fun _ => ?_, h.2.1, h.2.2.1, h.2.2.2⟩
      exact hstart.1
    · split
      · refine ⟨fun ha => ?_, h.2.1, h.2.2.1, h.2.2.2⟩
        have : g.game_active = true := ha
        rw [hinactive] at this; simp at this
      · refine ⟨fun ha => ?_, h.2.1, h.2.2.1, h.2.2.2⟩
        have : g.game_active = true := ha
        rw [hinactive] at this; simp at this

/-- The function `check_timeout` preserves the invariant. -/
theorem inv_check_timeout (g : GameState) (current_time reset_time : Int) (h : StateInv g) :
    StateInv (check_timeout g current_time reset_time).1 := by
  unfold check_timeout
  split
  · exact inv_initialize_game g reset_time
  · exact h

/-- Every reaction of the main loop preserves the invariant. -/
theorem inv_step (g : GameState) (ev : Event) (h : StateInv g) : StateInv (step g ev) := by
  cases ev with
  | connect new_socket now => exact inv_accept_connection g new_socket now h
  | message client_socket text now reset_time =>
    exact inv_handle_client_message g client_socket text now reset_time h
  | disconnect client_socket reset_time =>
    exact inv_handle_client_disconnect g client_socket reset_time h
  | tick current_time reset_time => exact inv_check_timeout g current_time reset_time h

/-- Every state reachable from server start satisfies the invariant. -/
theorem inv_reachable (t : Int) (evs : List Event) : StateInv (run (server_start t) evs) := by
  have hgen : ∀ (evs : List Event) (g : GameState), StateInv g → StateInv (run g evs) := by
    intro evs
    induction evs with
    | nil => intro g hg; exact hg
    | cons ev evs ih => intro g hg; exact ih (step g ev) (inv_step g ev hg)
  exact hgen evs _ (inv_initialize_game zero_state t)

/-- C11. In every state reachable from server start by joins, client messages,
disconnects and timeout checks, `game_active` is true only if exactly two
participants are registered. -/
theorem active_only_with_two_clients (t : Int) (evs : List Event)
    (hact : (run (server_start t) evs).game_active = true) :
    (run (server_start t) evs).connected_clients = 2 :=
  (inv_reachable t evs).1 hact

/-- C11, instance: after two joins the game is active with two clients. -/
theorem active_only_with_two_clients_witness :
    (run (server_start 0) opening_trace).game_active = true ∧
    (run (server_start 0) opening_trace).connected_clients = 2 :=
  ⟨by decide, active_only_with_two_clients 0 opening_trace (by decide)⟩

/-- The two marks differ for the two slots. -/
theorem mark_of_other (cur : Int) (h : cur = 0 ∨ cur = 1) :
    mark_of (1 - cur) ≠ mark_of cur ∧
    (mark_of cur = 'X' ∧ mark_of (1 - cur) = 'O' ∨
      mark_of cur = 'O' ∧ mark_of (1 - cur) = 'X') := by
  rcases h with h | h <;> subst h <;> decide

/-- C13. In every state reachable from server start the board holds no complete
line of X and none of O; and for every accepted placement made from such a state
(registered sender, on turn, `make_move` succeeds) the board right after the
placement holds no complete line of the non-mover's mark, so that `check_win`,
which tests the mover's mark only, answers yes exactly when some line is complete
for X or for O. -/
theorem no_line_of_other_mark (t : Int) (evs : List Event) :
    (has_line (run (server_start t) evs).board 'X' = false ∧
      has_line (run (server_start t) evs).board 'O' = false) ∧
    ∀ (client_socket : Int) (now : Int) (p : Nat) (row col : Int),
      find_client (run (server_start t) evs) client_socket = some p →
      (p : Int) = (run (server_start t) evs).current_player →
      (make_move { run (server_start t) evs with last_activity := now } row col p).1 = true →
      has_line (placed (run (server_start t) evs) now row col p).board
          (mark_of (1 - (p : Int))) = false ∧
        mark_of (1 - (p : Int)) ≠ mark_of p ∧
        (check_win (placed (run (server_start t) evs) now row col p) = true ↔
          (has_line (placed (run (server_start t) evs) now row col p).board 'X' = true ∨
            has_line (placed (run (server_start t) evs) now row col p).board 'O' = true)) := by
  have hinv := inv_reachable t evs
  refine ⟨⟨hinv.2.2.1, hinv.2.2.2⟩, ?_⟩
  intro client_socket now p row col _ hturn hok
  have hcur : (p : Int) = 0 ∨ (p : Int) = 1 := by rw [hturn]; exact hinv.2.1
  obtain ⟨hne, hmarks⟩ := mark_of_other p hcur
  have hold : has_line (run (server_start t) evs).board (mark_of (1 - (p : Int))) = false := by
    rcases hmarks with ⟨_, h2⟩ | ⟨_, h2⟩
    · rw [h2]; exact hinv.2.2.2
    · rw [h2]; exact hinv.2.2.1
  have hother : has_line (placed (run (server_start t) evs) now row col p).board
      (mark_of (1 - (p : Int))) = false :=
    placement_keeps_other_mark { run (server_start t) evs with last_activity := now }
      row col p _ hok hne hold
  have hwin := check_win_iff_has_line (placed (run (server_start t) evs) now row col p)
  have hcp : (placed (run (server_start t) evs) now row col p).current_player = (p : Int) := by
    unfold placed
    rw [(make_move_frame _ row col p).1]
    exact hturn.symm
  rw [hcp] at hwin
  refine ⟨hother, hne, ?_⟩
  rw [hwin]
  rcases hmarks with ⟨h1, h2⟩ | ⟨h1, h2⟩
  · rw [h1]; rw [h2] at hother
    constructor
    · intro h; exact Or.inl h
    · rintro (h | h)
      · exact h
      · rw [hother] at h; simp at h
  · rw [h1]; rw [h2] at hother
    constructor
    · intro h; exact Or.inr h
    · rintro (h | h)
      · rw [hother] at h; simp at h
      · exact h

/-- C13, instance: after four moves X completes the top row; the board then holds
no line of O and `check_win` reports the X line. -/
theorem no_line_of_other_mark_witness :
    find_client (run (server_start 0) x_to_win_trace) 4 = some 0 ∧
    has_line (placed (run (server_start 0) x_to_win_trace) 7 0 2 0).board 'O' = false ∧
    check_win (placed (run (server_start 0) x_to_win_trace) 7 0 2 0) = true :=
  have h := (no_line_of_other_mark 0 x_to_win_trace).2 4 7 0 0 2
    (by decide) (by decide) (by decide)
  ⟨by decide, h.1, h.2.2.mpr (Or.inl (by decide))⟩

/-! ### Outcome of an accepted move -/

/-- The effects of a move command from the player to move whose placement
succeeds, as a function of what `check_win` and `check_draw` answer. -/
theorem handle_move_accepted_effects (g : GameState) (client_socket : Int) (message : String)
    (now reset_time : Int) (p : Nat) (row col : Int)
    (hp : find_client g client_socket = some p)
    (hm : sscanf_move message = some (row, col))
    (hturn : (p : Int) = g.current_player)
    (hok : (make_move { g with last_activity := now } row col p).1 = true) :
    (handle_client_message g client_socket message now reset_time).2 =
      (send_to_all_clients (placed g now row col p) (move_announcement p row col)
        ++ send_game_state (placed g now row col p)) ++
      if check_win (placed g now row col p) then
        send_to_all_clients (placed g now row col p) (win_announcement p)
          ++ (restart_game (placed g now row col p) reset_time).2
      else if check_draw (placed g now row col p) then
        send_to_all_clients (placed g now row col p) draw_announcement
          ++ (restart_game (placed g now row col p) reset_time).2
      else
        send_to_all_clients
          { placed g now row col p with
            current_player := 1 - (placed g now row col p).current_player }
          (turn_msg { placed g now row col p with
            current_player := 1 - (placed g now row col p).current_player }) := by
  have hp2 : find_client { g with last_activity := now } client_socket = some p := hp
  have hturn2 : ¬ ((p : Int) ≠ g.current_player) := by simp [hturn]
  unfold handle_client_message placed
  simp only [hp2, hm]
  rw [if_neg hturn2]
  simp only [hok, if_true]
  cases hw : check_win (make_move { g with last_activity := now } row col p).2 with
  | true =>
    simp only [if_true, move_announcement, win_announcement, List.append_assoc]
  | false =>
    cases hd : check_draw (make_move { g with last_activity := now } row col p).2 with
    | true =>
      simp only [if_true, Bool.false_eq_true, if_false, move_announcement, draw_announcement,
        List.append_assoc]
    | false =>
      simp only [Bool.false_eq_true, if_false, move_announcement, List.append_assoc]

/-- With two registered clients a broadcast is one send to each socket. -/
theorem send_to_all_clients_two (g : GameState) (message : String)
    (h : g.connected_clients = 2) :
    send_to_all_clients g message =
      [Effect.send (g.client_sockets 0) message, Effect.send (g.client_sockets 1) message] := by
  simp [send_to_all_clients, h, List.range_succ, sock_get]

/-- A broadcast sends nothing but its message. -/
theorem mem_send_to_all_clients (g : GameState) (message m : String) (s : Int)
    (h : Effect.send s m ∈ send_to_all_clients g message) : m = message := by
  unfold send_to_all_clients at h
  rw [List.mem_map] at h
  obtain ⟨_, _, he⟩ := h
  injection he with _ h2
  exact h2.symm

/-- The board text has 50 characters. -/
theorem length_print_board_to_string (g : GameState) :
    (print_board_to_string g).length = 50 := by
  simp only [print_board_to_string, String.length_append]
  rfl

/-- The turn text has at least 24 characters. -/
theorem length_turn_msg (g : GameState) : 24 ≤ (turn_msg g).length := by
  simp only [turn_msg, String.length_append]
  have h1 : "It's Player ".length = 12 := by decide
  have h2 : "'s (".length = 4 := by decide
  have h3 : ") turn\n".length = 7 := by decide
  have h4 : (String.mk [mark_of g.current_player]).length = 1 := rfl
  omega

/-- The move text has at least 34 characters. -/
theorem length_move_announcement (p : Nat) (row col : Int) :
    34 ≤ (move_announcement p row col).length := by
  simp only [move_announcement, String.length_append]
  have h1 : "Player ".length = 7 := by decide
  have h2 : " (".length = 2 := by decide
  have h3 : ") placed at position (".length = 22 := by decide
  have h4 : (String.mk [mark_of p]).length = 1 := rfl
  have h5 : ",".length = 1 := by decide
  have h6 : ")\n".length = 2 := by decide
  omega

/-- The win text for slot 0 or 1 has 19 characters. -/
theorem length_win_announcement (p : Nat) (h : p < 2) : (win_announcement p).length = 19 := by
  have : p = 0 ∨ p = 1 := by omega
  rcases this with h | h <;> subst h <;> decide

/-- A text of the given length is none of the texts sent by `send_game_state`. -/
theorem not_mem_send_game_state (g : GameState) (m : String) (s : Int)
    (h50 : m.length ≠ 50) (h24 : m.length < 24) :
    Effect.send s m ∉ send_game_state g := by
  intro h
  unfold send_game_state at h
  rw [List.mem_append] at h
  rcases h with h | h
  · have := mem_send_to_all_clients g _ m s h
    rw [this, length_print_board_to_string] at h50
    exact h50 rfl
  · have := mem_send_to_all_clients g _ m s h
    have hl := length_turn_msg g
    rw [← this] at hl
    omega

/-- A text shorter than 23 characters is none of the texts sent by `restart_game`. -/
theorem not_mem_restart_game (g : GameState) (reset_time : Int) (m : String) (s : Int)
    (h23 : m.length < 23) :
    Effect.send s m ∉ (restart_game g reset_time).2 := by
  intro h
  unfold restart_game at h
  simp only [] at h
  rw [List.mem_append] at h
  rcases h with h | h
  · have := mem_send_to_all_clients g _ m s h
    rw [this] at h23
    revert h23
    decide
  · exact not_mem_send_game_state _ m s (by omega) (by omega) h

/-- The answer of `check_draw` is that no cell is blank. -/
theorem check_draw_iff_board_full (g : GameState) :
    check_draw g = true ↔ board_full g.board := by
  unfold check_draw board_full
  constructor
  · intro h i j
    simp only [List.all_cons, List.all_nil, Bool.and_true, Bool.and_eq_true, bne_iff_ne] at h
    fin_cases i <;> fin_cases j <;> simp only [] <;> tauto
  · intro h
    simp only [List.all_cons, List.all_nil, Bool.and_true, Bool.and_eq_true, bne_iff_ne]
    exact ⟨⟨h 0 0, h 0 1, h 0 2⟩, ⟨h 1 0, h 1 1, h 1 2⟩, ⟨h 2 0, h 2 1, h 2 2⟩⟩

/-- A text shorter than 24 characters, and not of 50, is none of the texts sent
right after the placement (move text, board, turn). -/
theorem not_mem_move_prefix (g : GameState) (p : Nat) (row col : Int) (m : String) (s : Int)
    (h24 : m.length < 24) :
    Effect.send s m ∉
      send_to_all_clients g (move_announcement p row col) ++ send_game_state g := by
  intro h
  rw [List.mem_append] at h
  rcases h with h | h
  · have := mem_send_to_all_clients g _ m s h
    have hl := length_move_announcement p row col
    rw [← this] at hl
    omega
  · exact not_mem_send_game_state g m s (by omega) h24 h

/-- The three outcomes of an accepted move in a reachable active state, in terms
of the texts the handler builds (`win_announcement`, `draw_announcement`,
`turn_msg`). -/
theorem move_outcome_core (t : Int) (evs : List Event) (client_socket : Int)
    (message : String) (now reset_time : Int) (p : Nat) (row col : Int)
    (hact : (run (server_start t) evs).game_active = true)
    (hp : find_client (run (server_start t) evs) client_socket = some p)
    (hm : sscanf_move message = some (row, col))
    (hturn : (p : Int) = (run (server_start t) evs).current_player)
    (hok : (make_move { run (server_start t) evs with last_activity := now } row col p).1
      = true) :
    (has_line (placed (run (server_start t) evs) now row col p).board (mark_of p) = true →
      sent_to_both (run (server_start t) evs)
        (handle_client_message (run (server_start t) evs) client_socket message now reset_time).2
        (win_announcement p)) ∧
    (has_line (placed (run (server_start t) evs) now row col p).board (mark_of p) = false →
      sent_to_nobody
        (handle_client_message (run (server_start t) evs) client_socket message now reset_time).2
        (win_announcement p)) ∧
    ((has_line (placed (run (server_start t) evs) now row col p).board 'X' = false ∧
        has_line (placed (run (server_start t) evs) now row col p).board 'O' = false ∧
        board_full (placed (run (server_start t) evs) now row col p).board) →
      sent_to_both (run (server_start t) evs)
        (handle_client_message (run (server_start t) evs) client_socket message now reset_time).2
        draw_announcement) ∧
    (¬ (has_line (placed (run (server_start t) evs) now row col p).board 'X' = false ∧
        has_line (placed (run (server_start t) evs) now row col p).board 'O' = false ∧
        board_full (placed (run (server_start t) evs) now row col p).board) →
      sent_to_nobody
        (handle_client_message (run (server_start t) evs) client_socket message now reset_time).2
        draw_announcement) ∧
    (has_line (placed (run (server_start t) evs) now row col p).board (mark_of p) = false →
      ¬ (has_line (placed (run (server_start t) evs) now row col p).board 'X' = false ∧
        has_line (placed (run (server_start t) evs) now row col p).board 'O' = false ∧
        board_full (placed (run (server_start t) evs) now row col p).board) →
      (handle_client_message (run (server_start t) evs) client_socket message now reset_time).1
        = { placed (run (server_start t) evs) now row col p with
            current_player := 1 - (p : Int) } ∧
      sent_to_both (run (server_start t) evs)
        (handle_client_message (run (server_start t) evs) client_socket message now reset_time).2
        (turn_msg { placed (run (server_start t) evs) now row col p with
          current_player := 1 - (p : Int) })) := by
  -- abbreviations
  generalize hG : run (server_start t) evs = G at hact hp hturn hok ⊢
  have hinv : StateInv G := by rw [← hG]; exact inv_reachable t evs
  have hcount : G.connected_clients = 2 := hinv.1 hact
  have hplt : p < 2 := by
    have := (find_client_some G client_socket p hp).1
    omega
  have hframe := make_move_frame { G with last_activity := now } row col p
  have hPcur : (placed G now row col p).current_player = (p : Int) := by
    unfold placed; rw [hframe.1]; exact hturn.symm
  have hPcount : (placed G now row col p).connected_clients = 2 := by
    unfold placed; rw [hframe.2.1]; exact hcount
  have hPsock : (placed G now row col p).client_sockets = G.client_sockets := by
    unfold placed; rw [hframe.2.2.1]
  have hcur : (p : Int) = 0 ∨ (p : Int) = 1 := by rw [hturn]; exact hinv.2.1
  obtain ⟨hne, hmarks⟩ := mark_of_other p hcur
  have hold : has_line G.board (mark_of (1 - (p : Int))) = false := by
    rcases hmarks with ⟨_, h2⟩ | ⟨_, h2⟩
    · rw [h2]; exact hinv.2.2.2
    · rw [h2]; exact hinv.2.2.1
  have hother : has_line (placed G now row col p).board (mark_of (1 - (p : Int))) = false :=
    placement_keeps_other_mark { G with last_activity := now } row col p _ hok hne hold
  have hwin := check_win_iff_has_line (placed G now row col p)
  rw [hPcur] at hwin
  have hdraw := check_draw_iff_board_full (placed G now row col p)
  have hnoline : has_line (placed G now row col p).board (mark_of p) = false →
      has_line (placed G now row col p).board 'X' = false ∧
      has_line (placed G now row col p).board 'O' = false := by
    intro h
    rcases hmarks with ⟨h1, h2⟩ | ⟨h1, h2⟩
    · rw [h1] at h; rw [h2] at hother; exact ⟨h, hother⟩
    · rw [h1] at h; rw [h2] at hother; exact ⟨hother, h⟩
  have hline : has_line (placed G now row col p).board (mark_of p) = true →
      ¬ (has_line (placed G now row col p).board 'X' = false ∧
        has_line (placed G now row col p).board 'O' = false ∧
        board_full (placed G now row col p).board) := by
    intro h hc
    rcases hmarks with ⟨h1, _⟩ | ⟨h1, _⟩
    · rw [h1, hc.1] at h; simp at h
    · rw [h1, hc.2.1] at h; simp at h
  have heff := handle_move_accepted_effects G client_socket message now reset_time p row col
    hp hm hturn hok
  have hstate := handle_move_on_turn G client_socket message now reset_time p row col
    hp hm hturn
  have hwin19 := length_win_announcement p hplt
  have hdraw22 : draw_announcement.length = 22 := by decide
  have hboth : ∀ (g2 : GameState) (msg : String) (pre post : List Effect),
      g2.connected_clients = 2 → g2.client_sockets = G.client_sockets →
      sent_to_both G (pre ++ (send_to_all_clients g2 msg ++ post)) msg := by
    intro g2 msg pre post h2 hs
    rw [send_to_all_clients_two g2 msg h2, hs]
    unfold sent_to_both
    simp
  refine ⟨?_, ?_, ?_, ?_, ?_⟩
  · -- a line of the mover: win text to both
    intro hl
    have hw : check_win (placed G now row col p) = true := hwin.mpr hl
    rw [heff]
    simp only [hw, if_true]
    exact hboth _ _ _ _ hPcount hPsock
  · -- no line of the mover: win text to nobody
    intro hl s hmem
    have hw : check_win (placed G now row col p) = false := by
      cases h : check_win (placed G now row col p) with
      | false => rfl
      | true => rw [hwin.mp h] at hl; simp at hl
    rw [heff] at hmem
    simp only [hw, Bool.false_eq_true, if_false] at hmem
    rw [List.mem_append] at hmem
    rcases hmem with hmem | hmem
    · exact not_mem_move_prefix _ p row col _ s (by omega) hmem
    · split at hmem
      · rw [List.mem_append] at hmem
        rcases hmem with hmem | hmem
        · have := mem_send_to_all_clients _ _ _ s hmem
          rw [this] at hwin19; omega
        · exact not_mem_restart_game _ reset_time _ s (by omega) hmem
      · have := mem_send_to_all_clients _ _ _ s hmem
        have hl24 := length_turn_msg { placed G now row col p with
          current_player := 1 - (placed G now row col p).current_player }
        rw [← this] at hl24
        omega
  · -- full board without a line: draw text to both
    rintro ⟨hx, ho, hfull⟩
    have hw : check_win (placed G now row col p) = false := by
      cases h : check_win (placed G now row col p) with
      | false => rfl
      | true => exact absurd ⟨hx, ho, hfull⟩ (hline (hwin.mp h))
    have hd : check_draw (placed G now row col p) = true := hdraw.mpr hfull
    rw [heff]
    simp only [hw, hd, Bool.false_eq_true, if_false, if_true]
    exact hboth _ _ _ _ hPcount hPsock
  · -- otherwise: draw text to nobody
    intro hnot s hmem
    rw [heff] at hmem
    rw [List.mem_append] at hmem
    rcases hmem with hmem | hmem
    · exact not_mem_move_prefix _ p row col _ s (by omega) hmem
    · cases hw : check_win (placed G now row col p) with
      | true =>
        simp only [hw, if_true] at hmem
        rw [List.mem_append] at hmem
        rcases hmem with hmem | hmem
        · have := mem_send_to_all_clients _ _ _ s hmem
          rw [this] at hdraw22; omega
        · exact not_mem_restart_game _ reset_time _ s (by omega) hmem
      | false =>
        have hl : has_line (placed G now row col p).board (mark_of p) = false := by
          cases h : has_line (placed G now row col p).board (mark_of p) with
          | false => rfl
          | true => rw [hwin.mpr h] at hw; simp at hw
        have hd : check_draw (placed G now row col p) = false := by
          cases h : check_draw (placed G now row col p) with
          | false => rfl
          | true =>
            exact absurd ⟨(hnoline hl).1, (hnoline hl).2, hdraw.mp h⟩ hnot
        simp only [hw, hd, Bool.false_eq_true, if_false] at hmem
        have := mem_send_to_all_clients _ _ _ s hmem
        have hl24 := length_turn_msg { placed G now row col p with
          current_player := 1 - (placed G now row col p).current_player }
        rw [← this] at hl24
        omega
  · -- neither: the turn passes, nothing is reset
    intro hl hnot
    have hw : check_win (placed G now row col p) = false := by
      cases h : check_win (placed G now row col p) with
      | false => rfl
      | true => rw [hwin.mp h] at hl; simp at hl
    have hd : check_draw (placed G now row col p) = false := by
      cases h : check_draw (placed G now row col p) with
      | false => rfl
      | true =>
        exact absurd ⟨(hnoline hl).1, (hnoline hl).2, hdraw.mp h⟩ hnot
    have hw2 : check_win (make_move { G with last_activity := now } row col p).2 = false := hw
    have hd2 : check_draw (make_move { G with last_activity := now } row col p).2 = false := hd
    constructor
    · rw [hstate]
      simp only [hok, hw2, hd2, if_true, Bool.false_eq_true, if_false]
      have : (make_move { G with last_activity := now } row col p).2.current_player = (p : Int) :=
        hPcur
      rw [this]
      rfl
    · rw [heff]
      simp only [hw, hd, Bool.false_eq_true, if_false]
      rw [hPcur]
      have := hboth { placed G now row col p with current_player := 1 - (p : Int) }
        (turn_msg { placed G now row col p with current_player := 1 - (p : Int) })
        (send_to_all_clients (placed G now row col p) (move_announcement p row col)
          ++ send_game_state (placed G now row col p)) [] hPcount hPsock
      simpa using this

/-- The `%d` model stores 32-bit values: the text `move 4294967296 4294967297` is
read as row 0, column 1, and a lone overflowing digit string saturates first. -/
theorem sscanf_move_wraps :
    sscanf_move "move 4294967296 4294967297" = some (0, 1) ∧
    sscanf_move "move 18446744073709551616 -1" = some (-1, -1) ∧
    sscanf_move "move 5 5" = some (5, 5) := by
  decide

/-- A value stored by `%d` lies in the range of a 32-bit `int`. -/
theorem to_int32_range (x : Int) :
    -2147483648 ≤ to_int32 x ∧ to_int32 x ≤ 2147483647 := by
  unfold to_int32
  omega

/-- In a fresh game the overflowing command `move 4294967296 4294967297` from the
player to move is a legal move to row 0, column 1: the X is placed and the turn
passes. -/
theorem overflowing_move_is_placed :
    (handle_client_message (fresh_game 4 5 0 1 2) 4
        "move 4294967296 4294967297" 7 7).1.board 0 1 = 'X' ∧
    (handle_client_message (fresh_game 4 5 0 1 2) 4
        "move 4294967296 4294967297" 7 7).1.current_player = 1 := by
  decide

/-- The handler's mark of a slot is the specification's. -/
theorem mark_of_eq_spec_mark (p : Nat) : mark_of (p : Int) = spec_mark p := by
  unfold mark_of spec_mark
  by_cases h : p = 0
  · subst h; rfl
  · have : ¬ ((p : Int) = 0) := by exact_mod_cast h
    rw [if_neg this, if_neg h]

/-- The handler's win text for slot 0 or 1 is the specification's. -/
theorem win_announcement_eq_spec (p : Nat) (h : p < 2) :
    win_announcement p = spec_win_text p := by
  have : p = 0 ∨ p = 1 := by omega
  rcases this with h | h <;> subst h <;> decide

/-- The handler's turn text for slot 0 or 1 is the specification's. -/
theorem turn_msg_eq_spec (g : GameState) (h : g.current_player = 0 ∨ g.current_player = 1) :
    turn_msg g = spec_turn_text g.current_player := by
  unfold turn_msg
  rcases h with h | h <;> rw [h] <;> decide

/-- The board right after a successful placement is the specification's. -/
theorem placed_board_eq_spec (g : GameState) (now : Int) (row col : Int) (p : Nat)
    (r c : Fin 3) (hr : (r.val : Int) = row) (hc : (c.val : Int) = col)
    (hok : (make_move { g with last_activity := now } row col p).1 = true) :
    (placed g now row col p).board = spec_board_after g.board r c p := by
  unfold placed
  rw [make_move_in_bounds _ row col p r c hr hc] at hok ⊢
  by_cases hne : ({ g with last_activity := now } : GameState).board r c ≠ ' '
  · rw [if_pos hne] at hok; simp at hok
  · rw [if_neg hne]
    funext i j
    simp only [spec_board_after, mark_of_eq_spec_mark]

/-- C12. In a reachable active state, for an accepted move of the player to move
`p` (registered sender on turn, `make_move` succeeds at `(row, col)`), the board
right after the placement is the old board with the mark of `p` (X for slot 0, O
for slot 1) written at that cell, and on that board: the win text naming `p`
(`Player 1 (X) wins!` or `Player 2 (O) wins!`) is sent to both clients when a
line is fully occupied by the mark of `p`, and to nobody otherwise; the draw text
is sent to both clients when no line of X or O is complete and no cell is blank,
and to nobody otherwise; in the remaining case nothing is reset (board as placed,
registry, counter and activity flag as before), the turn is handed to the other
slot `1 - p`, and the turn text naming that slot is sent to both clients. -/
theorem move_outcome_classified (t : Int) (evs : List Event) (client_socket : Int)
    (message : String) (now reset_time : Int) (p : Nat) (row col : Int) (r c : Fin 3)
    (hact : (run (server_start t) evs).game_active = true)
    (hp : find_client (run (server_start t) evs) client_socket = some p)
    (hm : sscanf_move message = some (row, col))
    (hturn : (p : Int) = (run (server_start t) evs).current_player)
    (hr : (r.val : Int) = row) (hc : (c.val : Int) = col)
    (hok : (make_move { run (server_start t) evs with last_activity := now } row col p).1
      = true) :
    (placed (run (server_start t) evs) now row col p).board
      = spec_board_after (run (server_start t) evs).board r c p ∧
    (has_line (spec_board_after (run (server_start t) evs).board r c p) (spec_mark p) = true →
      sent_to_both (run (server_start t) evs)
        (handle_client_message (run (server_start t) evs) client_socket message now reset_time).2
        (spec_win_text p)) ∧
    (has_line (spec_board_after (run (server_start t) evs).board r c p) (spec_mark p) = false →
      sent_to_nobody
        (handle_client_message (run (server_start t) evs) client_socket message now reset_time).2
        (spec_win_text p)) ∧
    ((has_line (spec_board_after (run (server_start t) evs).board r c p) 'X' = false ∧
        has_line (spec_board_after (run (server_start t) evs).board r c p) 'O' = false ∧
        board_full (spec_board_after (run (server_start t) evs).board r c p)) →
      sent_to_both (run (server_start t) evs)
        (handle_client_message (run (server_start t) evs) client_socket message now reset_time).2
        spec_draw_text) ∧
    (¬ (has_line (spec_board_after (run (server_start t) evs).board r c p) 'X' = false ∧
        has_line (spec_board_after (run (server_start t) evs).board r c p) 'O' = false ∧
        board_full (spec_board_after (run (server_start t) evs).board r c p)) →
      sent_to_nobody
        (handle_client_message (run (server_start t) evs) client_socket message now reset_time).2
        spec_draw_text) ∧
    (has_line (spec_board_after (run (server_start t) evs).board r c p) (spec_mark p) = false →
      ¬ (has_line (spec_board_after (run (server_start t) evs).board r c p) 'X' = false ∧
        has_line (spec_board_after (run (server_start t) evs).board r c p) 'O' = false ∧
        board_full (spec_board_after (run (server_start t) evs).board r c p)) →
      (handle_client_message (run (server_start t) evs) client_socket message now reset_time).1
        = { placed (run (server_start t) evs) now row col p with
            current_player := 1 - (p : Int) } ∧
      (handle_client_message (run (server_start t) evs) client_socket message now
          reset_time).1.board
        = spec_board_after (run (server_start t) evs).board r c p ∧
      (handle_client_message (run (server_start t) evs) client_socket message now
          reset_time).1.current_player = 1 - (p : Int) ∧
      (handle_client_message (run (server_start t) evs) client_socket message now
          reset_time).1.client_sockets = (run (server_start t) evs).client_sockets ∧
      (handle_client_message (run (server_start t) evs) client_socket message now
          reset_time).1.connected_clients = 2 ∧
      (handle_client_message (run (server_start t) evs) client_socket message now
          reset_time).1.game_active = true ∧
      sent_to_both (run (server_start t) evs)
        (handle_client_message (run (server_start t) evs) client_socket message now reset_time).2
        (spec_turn_text (1 - (p : Int)))) := by
  have hinv := inv_reachable t evs
  have hplt : p < 2 := by
    have := (find_client_some _ client_socket p hp).1
    have := hinv.1 hact
    omega
  have hcur : (p : Int) = 0 ∨ (p : Int) = 1 := by rw [hturn]; exact hinv.2.1
  have hcore := move_outcome_core t evs client_socket message now reset_time p row col
    hact hp hm hturn hok
  have hboard := placed_board_eq_spec (run (server_start t) evs) now row col p r c hr hc hok
  have hframe := make_move_frame { run (server_start t) evs with last_activity := now } row col p
  have hturntext : turn_msg { placed (run (server_start t) evs) now row col p with
      current_player := 1 - (p : Int) } = spec_turn_text (1 - (p : Int)) := by
    apply turn_msg_eq_spec
    show 1 - (p : Int) = 0 ∨ 1 - (p : Int) = 1
    omega
  rw [hboard, mark_of_eq_spec_mark, win_announcement_eq_spec p hplt, hturntext] at hcore
  obtain ⟨h1, h2, h3, h4, h5⟩ := hcore
  refine ⟨hboard, h1, h2, h3, h4, ?_⟩
  intro hl hnot
  obtain ⟨hst, hsent⟩ := h5 hl hnot
  refine ⟨hst, ?_, ?_, ?_, ?_, ?_, hsent⟩
  · rw [hst]; exact hboard
  · rw [hst]
  · rw [hst]
    show (placed (run (server_start t) evs) now row col p).client_sockets = _
    unfold placed; rw [hframe.2.2.1]
  · rw [hst]
    show (placed (run (server_start t) evs) now row col p).connected_clients = 2
    unfold placed; rw [hframe.2.1]; exact hinv.1 hact
  · rw [hst]
    show (placed (run (server_start t) evs) now row col p).game_active = true
    unfold placed; rw [hframe.2.2.2.1]; exact hact

/-- C12, instance: after four moves socket 4 (slot 0) completes the top row and
the text `Player 1 (X) wins!` goes to sockets 4 and 5. -/
theorem move_outcome_classified_witness :
    (run (server_start 0) x_to_win_trace).game_active = true ∧
    find_client (run (server_start 0) x_to_win_trace) 4 = some 0 ∧
    sscanf_move "move 0 2" = some (0, 2) ∧
    has_line (spec_board_after (run (server_start 0) x_to_win_trace).board 0 2 0) 'X' = true ∧
    Effect.send 4 "Player 1 (X) wins!\n"
      ∈ (handle_client_message (run (server_start 0) x_to_win_trace) 4 "move 0 2" 7 7).2 ∧
    Effect.send 5 "Player 1 (X) wins!\n"
      ∈ (handle_client_message (run (server_start 0) x_to_win_trace) 4 "move 0 2" 7 7).2 :=
  ⟨by decide, by decide, by decide, by decide,
    (move_outcome_classified 0 x_to_win_trace 4 "move 0 2" 7 7 0 0 2 0 2
      (by decide) (by decide) (by decide) (by decide) (by decide) (by decide)
      (by decide)).2.1 (by decide)⟩

end TicTacToe
